import Mathlib

/-!
Shallow embedding of the snurr BPMN engine (diagram model, builder pieces,
handler installation and the token-flow execution engine) with theorems about
its specified behaviour.

Sources embedded: src/diagram.rs, src/diagram/reader/builder.rs,
src/process.rs, src/process/engine.rs, src/process/engine/execute_handler.rs,
src/api.rs, src/error.rs.  The `bpmn`/`model` module that declares the node
enums/structs is not among the sources; those declarations are modelled from
the spec (section 3) and from how the present files pattern-match them.

Rust `Vec` values are lists in push order; the builder/token stacks are lists
whose head is the top of the stack.  Mutation of the lock-guarded user state
`Data<T>` is modelled by explicit state passing of a value of type `T`
(sequential, non-"parallel" build).  Unbounded `loop`s take a fuel argument;
`Except ε (Option α)` is used where `.ok none` means the fuel ran out.
-/

namespace Snurr

/-- Modelled from the spec: the `Symbol` enum of the missing `bpmn` module
(spec section 3, "Symbol — closed set"). -/
inductive Symbol
  | none
  | message
  | timer
  | escalation
  | conditional
  | link
  | error
  | cancel
  | compensation
  | signal
  | multiple
  | parallelMultiple
  | terminate
  deriving DecidableEq, Repr

/-- Modelled from the spec: event kinds of the missing `bpmn` module
(`EventType`).  Rust's `End` is written `endEvent`. -/
inductive EventType
  | start
  | intermediateCatch
  | intermediateThrow
  | boundary
  | endEvent
  deriving DecidableEq, Repr

/-- Modelled from the spec: activity kinds of the missing `bpmn` module
(`ActivityType`); `SubProcess` carries its optional `data_index`. -/
inductive ActivityType
  | task
  | scriptTask
  | userTask
  | serviceTask
  | callActivity
  | receiveTask
  | sendTask
  | manualTask
  | businessRuleTask
  | subProcess (dataIndex : Option Nat)
  deriving DecidableEq, Repr

/-- Modelled from the spec: gateway kinds of the missing `bpmn` module
(`GatewayType`). -/
inductive GatewayType
  | exclusive
  | inclusive
  | parallel
  | eventBased
  | complex
  deriving DecidableEq, Repr

/-- `Id` from src/diagram.rs: a `(bpmn_id, local_id)` pair. -/
structure Id where
  bpmnId : String
  localId : Nat
  deriving DecidableEq, Repr

/-- `Outputs` from src/diagram.rs: parallel arrays of bpmn ids and local
ids, in declaration order. -/
structure Outputs where
  bpmnIds : List String
  localIds : List Nat
  deriving DecidableEq, Repr

/-- `Outputs::ids`. -/
def Outputs.ids (o : Outputs) : List Nat := o.localIds

/-- `Outputs::len`. -/
def Outputs.len (o : Outputs) : Nat := o.localIds.length

/-- `Outputs::first`. -/
def Outputs.first? (o : Outputs) : Option Nat := o.localIds.head?

/-- Modelled from the spec: the `Event` struct of the missing `bpmn` module
(spec section 3). -/
structure Event where
  id : Id
  name : Option String
  eventType : EventType
  symbol : Option Symbol
  outputs : Outputs
  attachedToRef : Option Id
  deriving DecidableEq, Repr

/-- Modelled from the spec: the `Activity` struct of the missing `bpmn`
module (spec section 3). -/
structure Activity where
  id : Id
  name : Option String
  activityType : ActivityType
  outputs : Outputs
  funcIdx : Option Nat
  deriving DecidableEq, Repr

/-- Modelled from the spec: the `Gateway` struct of the missing `bpmn`
module (spec section 3). -/
structure Gateway where
  id : Id
  name : Option String
  gatewayType : GatewayType
  outputs : Outputs
  inputs : Nat
  default : Option Id
  funcIdx : Option Nat
  deriving DecidableEq, Repr

/-- Modelled from the spec: direction kind of the transient build-only
`Direction` node. -/
inductive DirectionType
  | incoming
  | outgoing
  deriving DecidableEq, Repr

/-- Modelled from the spec: the `Bpmn` tagged union of the missing `bpmn`
module (spec section 3), with the variants the present sources match on. -/
inductive Bpmn
  | definitions (id : Id)
  | process (id : Id) (dataIndex : Option Nat)
  | event (e : Event)
  | activity (a : Activity)
  | gateway (g : Gateway)
  | sequenceFlow (id : Id) (name : Option String) (targetRef : Id) (sourceRef : Option Id)
  | direction (directionType : DirectionType) (text : Option String)
  deriving DecidableEq, Repr

/-- The `Error` enum of src/error.rs (variants with only display payloads
keep a `String` argument; parse/transport variants are collapsed). -/
inductive Error
  | missingId (s : String)
  | missingOutput (s : String)
  | missingImplementation (s : String)
  | missingImplementations (s : String)
  | missingDefault (s : String)
  | missingBpmnData (s : String)
  | missingProcessData (s : String)
  | missingDefinitionsId
  | missingTargetRef
  | typeNotImplemented (s : String)
  | missingBoundary (s t : String)
  | missingIntermediateEvent (s t : String)
  | missingIntermediateThrowEventName (s : String)
  | missingIntermediateCatchEvent (s t : String)
  | missingEndEvent
  | missingStartEvent
  | noProcessResult
  | notSupported (s : String)
  | bpmnRequirement (s : String)
  | processExecution (s : String)
  | builder (s : String)
  deriving DecidableEq, Repr

/-- `AT_LEAST_TWO_OUTGOING` from src/error.rs. -/
def AT_LEAST_TWO_OUTGOING : String :=
  "Event gateway must have at least two outgoing sequence flows"

/-- `ONLY_ONE_START_EVENT` from src/error.rs. -/
def ONLY_ONE_START_EVENT : String :=
  "There can only be one start event of type none"

/-- Modelled from the spec: `Display` for `Symbol` lives in the missing
`bpmn` module; rendered as the variant name. -/
def Symbol.display : Symbol → String
  | .none => "None"
  | .message => "Message"
  | .timer => "Timer"
  | .escalation => "Escalation"
  | .conditional => "Conditional"
  | .link => "Link"
  | .error => "Error"
  | .cancel => "Cancel"
  | .compensation => "Compensation"
  | .signal => "Signal"
  | .multiple => "Multiple"
  | .parallelMultiple => "ParallelMultiple"
  | .terminate => "Terminate"

/-- Modelled from the spec: `Display` for `ActivityType` (used in the
`MissingImplementations` descriptors of src/diagram.rs). -/
def ActivityType.display : ActivityType → String
  | .task => "Task"
  | .scriptTask => "ScriptTask"
  | .userTask => "UserTask"
  | .serviceTask => "ServiceTask"
  | .callActivity => "CallActivity"
  | .receiveTask => "ReceiveTask"
  | .sendTask => "SendTask"
  | .manualTask => "ManualTask"
  | .businessRuleTask => "BusinessRuleTask"
  | .subProcess _ => "SubProcess"

/-- Modelled from the spec: `Display` for `GatewayType` (used in the
`MissingImplementations` descriptors of src/diagram.rs). -/
def GatewayType.display : GatewayType → String
  | .exclusive => "Exclusive"
  | .inclusive => "Inclusive"
  | .parallel => "Parallel"
  | .eventBased => "EventBased"
  | .complex => "Complex"

/-- Modelled from the spec: `Display` for `Event` (only used inside error
payload strings). -/
def Event.display (e : Event) : String := "Event " ++ e.id.bpmnId

/-- Modelled from the spec: `Display` for `Activity` (only used inside error
payload strings). -/
def Activity.display (a : Activity) : String := "Activity " ++ a.id.bpmnId

/-- Modelled from the spec: `Display` for `Gateway` (only used inside error
payload strings). -/
def Gateway.display (g : Gateway) : String := "Gateway " ++ g.id.bpmnId

/-- `IntermediateEvent` from src/api.rs: `(name, symbol)`, the return type of
event-based gateway callbacks.  Rust's tuple fields `.0`/`.1` are `name` and
`symbol`. -/
structure IntermediateEvent where
  name : String
  symbol : Symbol
  deriving DecidableEq, Repr

/-- `Display` for `IntermediateEvent` from src/api.rs: `({name}, {symbol})`. -/
def IntermediateEvent.display (ev : IntermediateEvent) : String :=
  "(" ++ ev.name ++ ", " ++ ev.symbol.display ++ ")"

/-- `Boundary` from src/api.rs: the task-callback return routing to a
boundary event. -/
inductive Boundary
  | symbol (s : Symbol)
  | nameSymbol (n : String) (s : Symbol)
  deriving DecidableEq, Repr

/-- `Boundary::symbol` from src/api.rs (named `sym` here because `symbol` is
the constructor). -/
def Boundary.sym : Boundary → Symbol
  | .symbol s => s
  | .nameSymbol _ s => s

/-- `Boundary::name` from src/api.rs. -/
def Boundary.name : Boundary → Option String
  | .symbol _ => Option.none
  | .nameSymbol n _ => some n

/-- `Display` for `Boundary` from src/api.rs. -/
def Boundary.display : Boundary → String
  | .symbol s => s.display
  | .nameSymbol n s => "(" ++ n ++ ", " ++ s.display ++ ")"

/-- `With` from src/api.rs: the inclusive-gateway callback return type. -/
inductive With
  | default
  | flow (v : String)
  | fork (vs : List String)
  deriving DecidableEq, Repr

/-- `EndNode` from src/api.rs: the end-node descriptor a run is documented to
return. -/
structure EndNode where
  id : String
  name : Option String
  symbol : Symbol
  deriving DecidableEq, Repr

/-- `ProcessOutput` from src/api.rs: final user data together with the
end-node descriptor. -/
structure ProcessOutput (T : Type) where
  data : T
  endNode : EndNode
  deriving DecidableEq, Repr

/-- `HandlerType` from src/process/handler.rs. -/
inductive HandlerType
  | task
  | exclusive
  | inclusive
  | eventBased
  deriving DecidableEq, Repr

/-!
ProcessData (src/diagram.rs).  `boundaries` and `catch_event_links` are
`HashMap`s in Rust; association lists stand in for them, looked up with
`List.lookup`.
-/

/-- `ProcessData` from src/diagram.rs. -/
structure ProcessData where
  start : Option Nat
  data : List Bpmn
  boundaries : List (Nat × List Nat)
  catchEventLinks : List (String × Nat)
  deriving DecidableEq, Repr

/-- `Bpmn::update_local_id` from src/diagram.rs. -/
def Bpmn.update_local_id (value : Nat) : Bpmn → Bpmn
  | .event e => .event { e with id := { e.id with localId := value } }
  | .sequenceFlow id name target src => .sequenceFlow { id with localId := value } name target src
  | .activity a => .activity { a with id := { a.id with localId := value } }
  | .definitions id => .definitions { id with localId := value }
  | .gateway g => .gateway { g with id := { g.id with localId := value } }
  | .process id di => .process { id with localId := value } di
  | b => b

/-- Whether a node matches the `Bpmn::Event { event_type: Start, symbol:
None, .. }` pattern of `ProcessData::add` in src/diagram.rs. -/
def Bpmn.isNoneStart : Bpmn → Bool
  | .event e => e.eventType == .start && e.symbol == Option.none
  | _ => false

/-- `ProcessData::add` from src/diagram.rs.  Rust mutates `self` and then may
return an error, so the result pairs the (possibly mutated) state with an
optional error: on a duplicate none-start event `start` has already been
replaced with the new index by `Option::replace` when the
`BpmnRequirement(ONLY_ONE_START_EVENT)` error is returned, and the node is
not pushed. -/
def ProcessData.add (pd : ProcessData) (bpmn : Bpmn) : ProcessData × Option Error :=
  let len := pd.data.length
  if bpmn.isNoneStart then
    if pd.start.isSome then
      ({ pd with start := some len }, some (.bpmnRequirement ONLY_ONE_START_EVENT))
    else
      ({ pd with start := some len, data := pd.data ++ [bpmn.update_local_id len] },
        Option.none)
  else
    ({ pd with data := pd.data ++ [bpmn.update_local_id len] }, Option.none)

/-- `ProcessData::get` from src/diagram.rs. -/
def ProcessData.get (pd : ProcessData) (index : Nat) : Option Bpmn := pd.data[index]?

/-- `ProcessData::activity_boundaries` from src/diagram.rs. -/
def ProcessData.activity_boundaries (pd : ProcessData) (id : Id) : Option (List Nat) :=
  pd.boundaries.lookup id.localId

/-- The match of `ProcessData::find_boundary`'s `find_map` closure
(src/diagram.rs): a boundary event matches when its symbol is present and
equal to the searched symbol and its optional name equals the searched
optional name; the match yields the event's local id. -/
def boundaryMatch (searchName : Option String) (searchSymbol : Symbol) : Bpmn → Option Nat
  | .event e =>
    match e.symbol with
    | some s => if s == searchSymbol && searchName == e.name then some e.id.localId else Option.none
    | Option.none => Option.none
  | _ => Option.none

/-- `ProcessData::find_boundary` from src/diagram.rs. -/
def ProcessData.find_boundary (pd : ProcessData) (activityId : Id)
    (searchName : Option String) (searchSymbol : Symbol) : Option Nat :=
  (pd.activity_boundaries activityId).bind fun indices =>
    (indices.filterMap pd.get).findSome? (boundaryMatch searchName searchSymbol)

/-- `ProcessData::catch_event_link` from src/diagram.rs. -/
def ProcessData.catch_event_link (pd : ProcessData) (throwEventName : String) :
    Except Error Nat :=
  match pd.catchEventLinks.lookup throwEventName with
  | some index => .ok index
  | Option.none =>
    .error (.missingIntermediateCatchEvent Symbol.link.display throwEventName)

/-- `ProcessData::find_by_name_or_id` from src/diagram.rs: the first output
whose node is a sequence flow named `search` or with bpmn id `search`. -/
def ProcessData.find_by_name_or_id (pd : ProcessData) (search : String)
    (outputs : Outputs) : Option Nat :=
  outputs.localIds.find? fun index =>
    match pd.data[index]? with
    | some (.sequenceFlow id name _ _) =>
      (match name with
        | some n => n == search
        | Option.none => false)
        || id.bpmnId == search
    | _ => false

/-- `ProcessData::find_by_intermediate_event` from src/diagram.rs: the first
output whose sequence flow targets a `ReceiveTask` with the searched name and
symbol `Message`, or an event with matching name and symbol among
Message/Signal/Timer/Conditional. -/
def ProcessData.find_by_intermediate_event (pd : ProcessData)
    (search : IntermediateEvent) (outputs : Outputs) : Option Nat :=
  outputs.localIds.find? fun index =>
    match pd.data[index]? with
    | some (.sequenceFlow _ _ targetRef _) =>
      match pd.data[targetRef.localId]? with
      | some (.activity a) =>
        match a.activityType, a.name with
        | .receiveTask, some nm => search.symbol == .message && nm == search.name
        | _, _ => false
      | some (.event e) =>
        match e.symbol, e.name with
        | some s, some nm =>
          (s == .message || s == .signal || s == .timer || s == .conditional)
            && s == search.symbol && nm == search.name
        | _, _ => false
      | _ => false
    | _ => false

/-!
Diagram and handler installation (src/diagram.rs, src/process.rs,
src/process/handler.rs).
-/

/-- `Diagram` from src/diagram.rs: finalized `ProcessData` blocks, the
Definitions block last. -/
structure Diagram where
  data : List ProcessData
  deriving DecidableEq, Repr

/-- `Diagram::get_definition` from src/diagram.rs. -/
def Diagram.get_definition (d : Diagram) : Option ProcessData := d.data.getLast?

/-- `Diagram::get_process` from src/diagram.rs. -/
def Diagram.get_process (d : Diagram) (processId : Nat) : Option ProcessData :=
  d.data[processId]?

/-- `HandlerMap::get` from src/process/handler.rs, as the lookup function the
installation walk consults: `(kind, name-or-id) → callback index`. -/
def HandlerMap : Type := HandlerType → String → Option Nat

/-- Whether an `ActivityType` is one of the nine callable task kinds matched
by `Diagram::install_and_check` in src/diagram.rs (`SubProcess` is not). -/
def ActivityType.isTaskKind : ActivityType → Bool
  | .task | .scriptTask | .userTask | .serviceTask | .callActivity
  | .receiveTask | .sendTask | .manualTask | .businessRuleTask => true
  | .subProcess _ => false

/-- The `HandlerType` looked up for a gateway kind in
`Diagram::install_and_check` (src/diagram.rs). -/
def GatewayType.handlerType : GatewayType → HandlerType
  | .exclusive => .exclusive
  | .inclusive => .inclusive
  | .eventBased => .eventBased
  | _ => .task

/-- Whether `Diagram::install_and_check` requires a callback for this node: an
activity of a task kind, or an Exclusive/Inclusive/EventBased gateway with
more than one output (its `if outputs.len() > 1` guard). -/
def Bpmn.requiresHandler : Bpmn → Bool
  | .activity a => a.activityType.isTaskKind
  | .gateway g =>
    (g.gatewayType == .eventBased || g.gatewayType == .exclusive
      || g.gatewayType == .inclusive)
      && 1 < g.outputs.len
  | _ => false

/-- The `name ?? bpmn_id` key `Diagram::install_and_check` looks up
(`name.as_deref().unwrap_or(id.bpmn())`). -/
def Bpmn.nameOrId : Bpmn → String
  | .activity a => a.name.getD a.id.bpmnId
  | .gateway g => g.name.getD g.id.bpmnId
  | _ => ""

/-- The handler kind `Diagram::install_and_check` looks up for a node. -/
def Bpmn.handlerKind : Bpmn → HandlerType
  | .gateway g => g.gatewayType.handlerType
  | _ => .task

/-- The `format!("{ty}: {name_or_id}")` descriptor inserted into the missing
set by `Diagram::install_and_check` for an unbound node. -/
def Bpmn.descriptor : Bpmn → String
  | .activity a => a.activityType.display ++ ": " ++ (a.name.getD a.id.bpmnId)
  | .gateway g => g.gatewayType.display ++ ": " ++ (g.name.getD g.id.bpmnId)
  | _ => ""

/-- Whether the node's `func_idx` is bound. -/
def Bpmn.funcIdxSet : Bpmn → Bool
  | .activity a => a.funcIdx.isSome
  | .gateway g => g.funcIdx.isSome
  | _ => false

/-- The node with its `func_idx` replaced (`func_idx.replace(*id)`). -/
def Bpmn.setFuncIdx (index : Nat) : Bpmn → Bpmn
  | .activity a => .activity { a with funcIdx := some index }
  | .gateway g => .gateway { g with funcIdx := some index }
  | b => b

/-- Insertion into the `HashSet` of missing descriptors, kept as a list in
first-insertion order. -/
def insertMissing (missing : List String) (s : String) : List String :=
  if s ∈ missing then missing else missing ++ [s]

/-- One node of the `Diagram::install_and_check` walk (src/diagram.rs): bind
the callback index of a task-kind activity or of a multi-output
Exclusive/Inclusive/EventBased gateway, or record its descriptor as missing. -/
def installBpmn (hm : HandlerMap) (b : Bpmn) (missing : List String) :
    Bpmn × List String :=
  if b.requiresHandler then
    match hm b.handlerKind b.nameOrId with
    | some index => (b.setFuncIdx index, missing)
    | Option.none => (b, insertMissing missing b.descriptor)
  else (b, missing)

/-- The inner loop of `Diagram::install_and_check` over one block's nodes. -/
def installList (hm : HandlerMap) : List Bpmn → List String → List Bpmn × List String
  | [], missing => ([], missing)
  | b :: rest, missing =>
    let step := installBpmn hm b missing
    let restRes := installList hm rest step.2
    (step.1 :: restRes.1, restRes.2)

/-- The outer loop of `Diagram::install_and_check` over the diagram's
blocks. -/
def installData (hm : HandlerMap) :
    List ProcessData → List String → List ProcessData × List String
  | [], missing => ([], missing)
  | pd :: rest, missing =>
    let step := installList hm pd.data missing
    let restRes := installData hm rest step.2
    ({ pd with data := step.1 } :: restRes.1, restRes.2)

/-- `Diagram::install_and_check` from src/diagram.rs: walks every block,
binds `func_idx` where the handler map has the `(kind, name-or-id)` key and
collects the descriptors of unbound required nodes. -/
def Diagram.install_and_check (d : Diagram) (hm : HandlerMap) :
    Diagram × List String :=
  (⟨(installData hm d.data []).1⟩, (installData hm d.data []).2)

/-- `Process::build` from src/process.rs: install callbacks and validate;
empty missing set means success, otherwise `MissingImplementations` carries
the joined descriptors. -/
def Diagram.build (d : Diagram) (hm : HandlerMap) : Except Error Diagram :=
  if (d.install_and_check hm).2.isEmpty then .ok (d.install_and_check hm).1
  else .error (.missingImplementations
    (String.intercalate ", " (d.install_and_check hm).2))

/-!
Diagram builder pieces (src/diagram/reader/builder.rs).
-/

/-- `DataBuilder` from src/diagram/reader/builder.rs.  The stacks are lists
whose head is the top. -/
structure DataBuilder where
  data : List ProcessData
  process_stack : List ProcessData
  stack : List Bpmn
  deriving DecidableEq, Repr

/-- `check_unsupported` from src/diagram/reader/builder.rs: a `SequenceFlow`
popped with separate start and end tags is a conditional sequence flow and is
rejected with `NotSupported`. -/
def check_unsupported : Bpmn → Except Error Unit
  | .sequenceFlow id name _ _ =>
    .error (.notSupported ((name.getD id.bpmnId) ++ ": " ++ "conditional sequence flow"))
  | _ => .ok ()

/-- `DataBuilder::add_to_process` from src/diagram/reader/builder.rs. -/
def DataBuilder.add_to_process (b : DataBuilder) (bpmn : Bpmn) :
    Except Error DataBuilder :=
  match b.process_stack with
  | [] => .ok b
  | pd :: rest =>
    match pd.add bpmn with
    | (_, some e) => .error e
    | (pd', Option.none) => .ok { b with process_stack := pd' :: rest }

/-- `DataBuilder::end` from src/diagram/reader/builder.rs (named `endTag`
because `end` is a Lean keyword): pop the open element, reject unsupported
shapes, then append it to the innermost open process block. -/
def DataBuilder.endTag (b : DataBuilder) : Except Error DataBuilder :=
  match b.stack with
  | [] => .ok b
  | bpmn :: rest =>
    match check_unsupported bpmn with
    | .error e => .error e
    | .ok _ => DataBuilder.add_to_process { b with stack := rest } bpmn

/-!
Handler registry as the engine consumes it (src/process/engine.rs calls
`self.handler.run(index, data)` and matches the kind-tagged result).
-/

/-- The kind-tagged callback result matched by src/process/engine.rs. -/
inductive CallbackResult
  | task (r : Option Boundary)
  | exclusive (r : Option String)
  | inclusive (r : With)
  | eventBased (r : IntermediateEvent)
  deriving DecidableEq, Repr

/-- Modelled from the spec: the `Handler::run` dispatch used by
src/process/engine.rs is not among the sources (src/process/handler.rs holds
an older per-kind interface); it runs the callback stored at `index` on the
lock-guarded user data and returns its kind-tagged result, `none` when the
index is unbound.  State passing stands in for the `Data<T>` lock. -/
structure Handler (T : Type) where
  run : Nat → T → Option CallbackResult × T

/-- `Process<T, Run>` from src/process.rs, reduced to the fields the engine
reads: the immutable diagram and the callback registry. -/
structure Process (T : Type) where
  diagram : Diagram
  handler : Handler T

/-!
Token accounting (src/process/engine/execute_handler.rs).
-/

/-- `TokenData` from src/process/engine/execute_handler.rs.  `joined` keeps
the gateways in arrival (push) order. -/
structure TokenData where
  created : Nat
  joined : List Gateway
  consumed : Nat
  deriving DecidableEq, Repr

/-- `TokenData::new`. -/
def TokenData.new (created : Nat) : TokenData := ⟨created, [], 0⟩

/-- `TokenData::consume`: record the joined gateway (when any) and count the
consumed token. -/
def TokenData.consume (td : TokenData) (maybeGateway : Option Gateway) : TokenData :=
  { td with
    joined := match maybeGateway with
      | some g => td.joined ++ [g]
      | Option.none => td.joined,
    consumed := td.consumed + 1 }

/-- `TokenData::consumed`: `created.saturating_sub(consumed) == 0`. -/
def TokenData.isConsumed (td : TokenData) : Bool := td.created - td.consumed == 0

/-- `ExecuteHandler` from src/process/engine/execute_handler.rs.
`tokensReady` and `uncommitted` are in `Vec` push order; `tokenStack`'s head
is the top of the stack. -/
structure ExecuteHandler where
  tokensReady : List (List Nat)
  uncommitted : List (List Nat)
  tokenStack : List TokenData
  deriving DecidableEq, Repr

/-- `ExecuteHandler::new`. -/
def ExecuteHandler.new (tokens : List Nat) : ExecuteHandler := ⟨[tokens], [], []⟩

/-- `ExecuteHandler::immediate`: push straight to `tokens_ready` without a
new `TokenData`. -/
def ExecuteHandler.immediate (h : ExecuteHandler) (item : List Nat) : ExecuteHandler :=
  { h with tokensReady := h.tokensReady ++ [item] }

/-- `ExecuteHandler::pending_fork`. -/
def ExecuteHandler.pending_fork (h : ExecuteHandler) (item : List Nat) : ExecuteHandler :=
  { h with uncommitted := h.uncommitted ++ [item] }

/-- `ExecuteHandler::commit`: drain `uncommitted` in order, pushing a fresh
`TokenData` per frontier. -/
def ExecuteHandler.commit (h : ExecuteHandler) : ExecuteHandler :=
  let h' := h.uncommitted.foldl
    (fun acc item =>
      { acc with
        tokenStack := TokenData.new item.length :: acc.tokenStack,
        tokensReady := acc.tokensReady ++ [item] })
    h
  { h' with uncommitted := [] }

/-- `ExecuteHandler::consume_token`: consume on the top-of-stack record, a
no-op when the stack is empty. -/
def ExecuteHandler.consume_token (h : ExecuteHandler) (join : Option Gateway) :
    ExecuteHandler :=
  match h.tokenStack with
  | [] => h
  | td :: rest => { h with tokenStack := td.consume join :: rest }

/-- The `retain` of `check_unbalanced_diagram`: keep the first gateway per
`id.local()`. -/
def dedupByLocalId : List Gateway → List Nat → List Gateway
  | [], _ => []
  | g :: rest, seen =>
    if g.id.localId ∈ seen then dedupByLocalId rest seen
    else g :: dedupByLocalId rest (g.id.localId :: seen)

/-- `check_unbalanced_diagram` from src/process/engine/execute_handler.rs
(compiled under `debug_assertions`, which this model keeps): visiting more
than one distinct gateway in one record is an unbalanced diagram. -/
def check_unbalanced_diagram (input : List Gateway) : Except Error Unit :=
  if 1 < (dedupByLocalId input []).length then
    .error (.notSupported "Unbalanced diagram")
  else .ok ()

/-- `ExecuteHandler::tokens_consumed` from
src/process/engine/execute_handler.rs: when the top record is fully consumed,
pop it; the first joined gateway (if any) is returned to be fired, after the
Parallel arrival-count check and the unbalanced-diagram check. -/
def ExecuteHandler.tokens_consumed (h : ExecuteHandler) :
    Except Error (ExecuteHandler × Option Gateway) :=
  match h.tokenStack with
  | [] => .ok (h, Option.none)
  | td :: rest =>
    if td.isConsumed then
      let gateways := td.joined
      let popped : ExecuteHandler := { h with tokenStack := rest }
      match gateways.head? with
      | some gw =>
        if gw.gatewayType == .parallel && gateways.length < gw.inputs then
          .error (.bpmnRequirement
            ("Execution stopped. Not enough tokens at " ++ gw.display))
        else
          match check_unbalanced_diagram gateways with
          | .error e => .error e
          | .ok _ => .ok (popped, some gw)
      | Option.none =>
        match check_unbalanced_diagram gateways with
        | .error e => .error e
        | .ok _ => .ok (popped, Option.none)
    else .ok (h, Option.none)

/-!
Single-token advancement (src/process/engine.rs `flow`).
-/

/-- The `Return` enum of src/process/engine.rs (Rust's `End` is `ended`). -/
inductive Return
  | fork (ids : List Nat)
  | join (g : Gateway)
  | ended (e : Event)
  deriving DecidableEq, Repr

/-- The `maybe_fork!` macro of src/process/engine.rs: with at most one output
continue to it (`MissingOutput` when there is none), otherwise fork all
outputs. -/
def maybe_fork (outputs : Outputs) (disp : String) : Except Error (Nat ⊕ List Nat) :=
  if outputs.len ≤ 1 then
    match outputs.first? with
    | some index => .ok (.inl index)
    | Option.none => .error (.missingOutput disp)
  else .ok (.inr outputs.ids)

/-- Modelled from the spec: `Gateway::default_path` lives in the missing
`bpmn` module; the spec says the default flow "must be set, else
`MissingDefault`". -/
def Gateway.default_path (g : Gateway) : Except Error Nat :=
  match g.default with
  | some id => .ok id.localId
  | Option.none => .error (.missingDefault g.display)

/-- The end-event symbols of the `SubProcess` arm of `flow`
(src/process/engine.rs) that route to a boundary event. -/
def Symbol.isInterrupting : Symbol → Bool
  | .cancel | .compensation | .conditional | .error
  | .escalation | .message | .signal | .timer => true
  | _ => false

/-- The resolve-and-deduplicate loop of `handle_inclusive_gateway`
(src/process/engine.rs) for a multi-value `With::Fork`.  Rust collects the
resolved indices into a `HashSet`, breaking on the first resolution error and
warning on repeats; the set is kept in first-occurrence order here (its Rust
iteration order is unspecified). -/
def resolveDedup (find : String → Except Error Nat) :
    List String → List Nat → Except Error (List Nat)
  | [], acc => .ok acc
  | v :: rest, acc =>
    match find v with
    | .error e => .error e
    | .ok index => resolveDedup find rest (if index ∈ acc then acc else acc ++ [index])

/-- `Process::handle_inclusive_gateway` from src/process/engine.rs: run the
inclusive callback and turn its `With` result into the selected output
set. -/
def Process.handle_inclusive_gateway {T : Type} (p : Process T) (pd : ProcessData)
    (gateway : Gateway) (st : T) : Except Error (List Nat × T) :=
  let find_flow : String → Except Error Nat := fun value =>
    match pd.find_by_name_or_id value gateway.outputs with
    | some index => .ok index
    | Option.none => .error (.missingOutput gateway.display)
  match gateway.funcIdx with
  | Option.none => .error (.missingImplementation gateway.display)
  | some index =>
    match p.handler.run index st with
    | (some (.inclusive result), st') =>
      match result with
      | .flow value =>
        match find_flow value with
        | .error e => .error e
        | .ok idx => .ok ([idx], st')
      | .fork values =>
        match values with
        | [] =>
          match gateway.default_path with
          | .error e => .error e
          | .ok idx => .ok ([idx], st')
        | [value] =>
          match find_flow value with
          | .error e => .error e
          | .ok idx => .ok ([idx], st')
        | _ =>
          match resolveDedup find_flow values [] with
          | .error e => .error e
          | .ok ids => .ok (ids, st')
      | .default =>
        match gateway.default_path with
        | .error e => .error e
        | .ok idx => .ok ([idx], st')
    | (_, _) => .error (.missingImplementation gateway.display)

/-- `Process::flow` from src/process/engine.rs: advance one token through
straight-line edges until a Fork, Join or End, threading the user state
through callbacks.  `subExec` is the recursive `execute` used by the
`SubProcess` arm; one unit of fuel is spent per `loop` iteration, and
`.ok none` means the fuel ran out. -/
def Process.flowGo {T : Type} (p : Process T)
    (subExec : ProcessData → T → Except Error (Option (Event × T)))
    (pd : ProcessData) : Nat → Nat → T → Except Error (Option (Return × T))
  | 0, _, _ => .ok Option.none
  | fuel + 1, currentId, st =>
    match pd.get currentId with
    | Option.none => .error (.missingBpmnData (toString currentId))
    | some (.event e) =>
      match e.eventType with
      | .start | .intermediateCatch | .boundary =>
        match maybe_fork e.outputs e.display with
        | .error err => .error err
        | .ok (.inr ids) => .ok (some (.fork ids, st))
        | .ok (.inl next) => p.flowGo subExec pd fuel next st
      | .intermediateThrow =>
        match e.name, e.symbol with
        | some nm, some .link =>
          match pd.catch_event_link nm with
          | .error err => .error err
          | .ok next => p.flowGo subExec pd fuel next st
        | some _, _ =>
          match maybe_fork e.outputs e.display with
          | .error err => .error err
          | .ok (.inr ids) => .ok (some (.fork ids, st))
          | .ok (.inl next) => p.flowGo subExec pd fuel next st
        | Option.none, _ => .error (.missingIntermediateThrowEventName e.id.bpmnId)
      | .endEvent => .ok (some (.ended e, st))
    | some (.activity a) =>
      match a.activityType with
      | .subProcess (some index) =>
        match p.diagram.get_process index with
        | Option.none => .error (.missingProcessData a.id.bpmnId)
        | some spData =>
          match subExec spData st with
          | .error err => .error err
          | .ok Option.none => .ok Option.none
          | .ok (some (ev, st')) =>
            match ev.eventType, ev.symbol with
            | .endEvent, some s =>
              if s.isInterrupting then
                match pd.find_boundary a.id ev.name s with
                | some next => p.flowGo subExec pd fuel next st'
                | Option.none => .error (.missingBoundary s.display a.display)
              else
                match maybe_fork a.outputs a.display with
                | .error err => .error err
                | .ok (.inr ids) => .ok (some (.fork ids, st'))
                | .ok (.inl next) => p.flowGo subExec pd fuel next st'
            | _, _ =>
              match maybe_fork a.outputs a.display with
              | .error err => .error err
              | .ok (.inr ids) => .ok (some (.fork ids, st'))
              | .ok (.inl next) => p.flowGo subExec pd fuel next st'
      | .subProcess Option.none => .error (.missingProcessData a.display)
      | _ =>
        match a.funcIdx with
        | Option.none => .error (.missingImplementation a.display)
        | some index =>
          let (res, st') := p.handler.run index st
          match (match res with
                  | some (.task r) => r
                  | _ => Option.none : Option Boundary) with
          | some boundary =>
            match pd.find_boundary a.id boundary.name boundary.sym with
            | some next => p.flowGo subExec pd fuel next st'
            | Option.none => .error (.missingBoundary boundary.display a.display)
          | Option.none =>
            match maybe_fork a.outputs a.display with
            | .error err => .error err
            | .ok (.inr ids) => .ok (some (.fork ids, st'))
            | .ok (.inl next) => p.flowGo subExec pd fuel next st'
    | some (.gateway g) =>
      if g.outputs.len == 0 then .error (.missingOutput g.display)
      else if g.outputs.len == 1 && g.inputs == 1 then
        match g.outputs.first? with
        | some next => p.flowGo subExec pd fuel next st
        | Option.none => .error (.missingOutput g.display)
      else
        match g.gatewayType with
        | .exclusive =>
          if g.outputs.len == 1 then
            match g.outputs.first? with
            | some next => p.flowGo subExec pd fuel next st
            | Option.none => .error (.missingOutput g.display)
          else
            match g.funcIdx with
            | Option.none => .error (.missingImplementation g.display)
            | some index =>
              let (res, st') := p.handler.run index st
              match (match res with
                      | some (.exclusive r) => r
                      | _ => Option.none : Option String) with
              | some value =>
                match pd.find_by_name_or_id value g.outputs with
                | some next => p.flowGo subExec pd fuel next st'
                | Option.none => .error (.missingOutput g.display)
              | Option.none =>
                match g.default_path with
                | .error err => .error err
                | .ok next => p.flowGo subExec pd fuel next st'
        | .parallel =>
          if 1 < g.inputs then .ok (some (.join g, st))
          else .ok (some (.fork g.outputs.ids, st))
        | .inclusive =>
          if 1 < g.inputs then .ok (some (.join g, st))
          else
            match p.handle_inclusive_gateway pd g st with
            | .error err => .error err
            | .ok (ids, st') => .ok (some (.fork ids, st'))
        | .eventBased =>
          if g.outputs.len == 1 then
            .error (.bpmnRequirement AT_LEAST_TWO_OUTGOING)
          else
            match g.funcIdx with
            | Option.none => .error (.missingImplementation g.display)
            | some index =>
              match p.handler.run index st with
              | (some (.eventBased value), st') =>
                match pd.find_by_intermediate_event value g.outputs with
                | some next => p.flowGo subExec pd fuel next st'
                | Option.none =>
                  .error (.missingIntermediateEvent g.display value.display)
              | (_, _) => .error (.missingImplementation g.display)
        | .complex =>
          -- Modelled from the spec: the gateway match of src/process/engine.rs
          -- covers only the four routed kinds; spec section 4.3.4 gives Complex
          -- no routing rule.
          .error (.typeNotImplemented g.display)
    | some (.sequenceFlow _ _ targetRef _) => p.flowGo subExec pd fuel targetRef.localId st
    | some b => .error (.typeNotImplemented b.nameOrId)

/-!
Main loop (src/process/engine.rs `execute`).  The round processing is split
in the shape of the Rust loop body: dispatch the flow results of one
frontier's tokens in order, then the `tokens_consumed` gateway firing, then
the next frontier; frontiers are visited in reverse order, and `commit`
promotes the uncommitted frontiers between rounds.
-/

/-- Outcome of processing part of a round: an early successful return
(Terminate/Cancel end event), the updated accumulators, or fuel exhaustion
inside a token's `flow`. -/
inductive RoundOut (T : Type)
  | finished (e : Event) (st : T)
  | cont (h : ExecuteHandler) (lastEnd : Option Event) (st : T)
  | fuelOut

/-- The per-token dispatch of `execute`'s inner `for flow_result` loop
(src/process/engine.rs): Join consumes with the gateway, a Terminate/Cancel
end event returns it immediately, any other end event becomes the last
visited end and consumes, and a Fork becomes a pending frontier. -/
def processTokens {T : Type}
    (flowFn : Nat → T → Except Error (Option (Return × T))) :
    List Nat → ExecuteHandler → Option Event → T → Except Error (RoundOut T)
  | [], h, lastEnd, st => .ok (.cont h lastEnd st)
  | token :: rest, h, lastEnd, st =>
    match flowFn token st with
    | .error e => .error e
    | .ok Option.none => .ok .fuelOut
    | .ok (some (.join gw, st')) =>
      processTokens flowFn rest (h.consume_token (some gw)) lastEnd st'
    | .ok (some (.ended ev, st')) =>
      if ev.eventType == .endEvent
          && (ev.symbol == some Symbol.terminate || ev.symbol == some Symbol.cancel) then
        .ok (.finished ev st')
      else
        processTokens flowFn rest (h.consume_token Option.none) (some ev) st'
    | .ok (some (.fork ids, st')) =>
      processTokens flowFn rest (h.pending_fork ids) lastEnd st'

/-- The `tokens_consumed` dispatch after each frontier (src/process/engine.rs
lines 89-110): a fully merged Parallel/Inclusive gateway with one output is
promoted immediately, a Parallel fires all its outputs as a pending fork, an
Inclusive re-runs its callback to select the outputs. -/
def Process.afterFrontier {T : Type} (p : Process T) (pd : ProcessData)
    (h : ExecuteHandler) (st : T) : Except Error (ExecuteHandler × T) :=
  match h.tokens_consumed with
  | .error e => .error e
  | .ok (h', Option.none) => .ok (h', st)
  | .ok (h', some gw) =>
    if (gw.gatewayType == .parallel || gw.gatewayType == .inclusive)
        && gw.outputs.len == 1 then
      .ok (h'.immediate gw.outputs.ids, st)
    else
      match gw.gatewayType with
      | .parallel => .ok (h'.pending_fork gw.outputs.ids, st)
      | .inclusive =>
        match p.handle_inclusive_gateway pd gw st with
        | .error e => .error e
        | .ok (ids, st') => .ok (h'.pending_fork ids, st')
      | _ => .ok (h', st)

/-- The `for flows_result in flows_iter.rev()` loop of `execute` over the
(already reversed) frontiers of one round. -/
def Process.processFrontiers {T : Type} (p : Process T) (pd : ProcessData)
    (flowFn : Nat → T → Except Error (Option (Return × T))) :
    List (List Nat) → ExecuteHandler → Option Event → T → Except Error (RoundOut T)
  | [], h, lastEnd, st => .ok (.cont h lastEnd st)
  | frontier :: rest, h, lastEnd, st =>
    match processTokens flowFn frontier h lastEnd st with
    | .error e => .error e
    | .ok .fuelOut => .ok .fuelOut
    | .ok (.finished ev st') => .ok (.finished ev st')
    | .ok (.cont h' lastEnd' st') =>
      match p.afterFrontier pd h' st' with
      | .error e => .error e
      | .ok (h'', st'') => p.processFrontiers pd flowFn rest h'' lastEnd' st''

/-- The `loop` of `execute` (src/process/engine.rs): take the ready
frontiers; when none remain return the last visited end event
(`MissingEndEvent` when there is none); otherwise process the frontiers in
reverse order and commit the new ones. -/
def Process.rounds {T : Type} (p : Process T) (pd : ProcessData)
    (flowFn : Nat → T → Except Error (Option (Return × T))) :
    Nat → ExecuteHandler → Option Event → T → Except Error (Option (Event × T))
  | 0, _, _, _ => .ok Option.none
  | fuel + 1, h, lastEnd, st =>
    let active := h.tokensReady
    let taken : ExecuteHandler := { h with tokensReady := [] }
    if active.isEmpty then
      match lastEnd with
      | some e => .ok (some (e, st))
      | Option.none => .error .missingEndEvent
    else
      match p.processFrontiers pd flowFn active.reverse taken lastEnd st with
      | .error e => .error e
      | .ok .fuelOut => .ok Option.none
      | .ok (.finished ev st') => .ok (some (ev, st'))
      | .ok (.cont h' lastEnd' st') => p.rounds pd flowFn fuel h'.commit lastEnd' st'

/-- `Process::execute` from src/process/engine.rs: seed one frontier with the
process's start event and run the round loop.  `.ok none` means the fuel ran
out; a successful run yields the terminating end event and the final user
state. -/
def Process.executeFuel {T : Type} (p : Process T) :
    Nat → ProcessData → T → Except Error (Option (Event × T))
  | 0, _, _ => .ok Option.none
  | fuel + 1, pd, st =>
    match pd.start with
    | Option.none => .error .missingStartEvent
    | some s =>
      p.rounds pd (fun token t => p.flowGo (p.executeFuel fuel) pd fuel token t) fuel
        (ExecuteHandler.new [s]) Option.none st

/-- The `for bpmn in definitions` loop of `Process::run` (src/process.rs):
execute every `Bpmn::Process` with a data index, threading the shared user
data; the end event `execute` returns is discarded. -/
def Process.runProcesses {T : Type} (p : Process T) (fuel : Nat) :
    List Bpmn → T → Except Error (Option T)
  | [], st => .ok (some st)
  | b :: rest, st =>
    match b with
    | .process id (some index) =>
      match p.diagram.get_process index with
      | Option.none => .error (.missingProcessData id.bpmnId)
      | some processData =>
        match p.executeFuel fuel processData st with
        | .error e => .error e
        | .ok Option.none => .ok Option.none
        | .ok (some (_, st')) => p.runProcesses fuel rest st'
    | _ => p.runProcesses fuel rest st

/-- `Process::run` from src/process.rs: run every process of the Definitions
block and return the user data (`Result<T, Error>`; `.ok (some data)` on
success, `.ok none` when the fuel ran out). -/
def Process.run {T : Type} (p : Process T) (fuel : Nat) (data : T) :
    Except Error (Option T) :=
  match p.diagram.get_definition with
  | Option.none => .error .missingDefinitionsId
  | some defs => p.runProcesses fuel defs.data data

/-!
Concrete instances used by closed theorems (counterexamples and witnesses).
-/

/-- A sub-process executor that never produces a result (no diagram below
uses sub-processes). -/
def noSub : ProcessData → Nat → Except Error (Option (Event × Nat)) :=
  fun _ _ => .ok Option.none

/-- The terminating end event of the one-task diagram: id `end1`, name
`Done`, symbol `Message`. -/
def endC1 : Event :=
  ⟨⟨"end1", 2⟩, some "Done", .endEvent, some .message, ⟨[], []⟩, Option.none⟩

/-- A minimal process block: none-start event, sequence flow, end event. -/
def pdC1 : ProcessData :=
  { start := some 0
    data :=
      [ .event ⟨⟨"start1", 0⟩, Option.none, .start, Option.none, ⟨["f1"], [1]⟩, Option.none⟩
      , .sequenceFlow ⟨"f1", 1⟩ Option.none ⟨"end1", 2⟩ Option.none
      , .event endC1 ]
    boundaries := []
    catchEventLinks := [] }

/-- The Definitions block listing the single process. -/
def defsC1 : ProcessData :=
  { start := Option.none
    data := [ .process ⟨"p1", 0⟩ (some 0) ]
    boundaries := []
    catchEventLinks := [] }

/-- The built process over the minimal diagram, with a callback registry that
is never consulted. -/
def pC1 : Process Nat :=
  { diagram := ⟨[pdC1, defsC1]⟩
    handler := ⟨fun _ st => (Option.none, st)⟩ }

/-- An event-based gateway with exactly one outgoing flow and exactly one
input. -/
def gwC2 : Gateway :=
  ⟨⟨"gw1", 0⟩, Option.none, .eventBased, ⟨["f1"], [1]⟩, 1, Option.none, Option.none⟩

/-- The plain end event the single flow of `gwC2` leads to. -/
def endC2 : Event :=
  ⟨⟨"end2", 2⟩, Option.none, .endEvent, Option.none, ⟨[], []⟩, Option.none⟩

/-- A block whose entry node is `gwC2`. -/
def pdC2 : ProcessData :=
  { start := Option.none
    data :=
      [ .gateway gwC2
      , .sequenceFlow ⟨"f1", 1⟩ Option.none ⟨"end2", 2⟩ Option.none
      , .event endC2 ]
    boundaries := []
    catchEventLinks := [] }

/-- `gwC2` with two inputs instead of one. -/
def gwC2b : Gateway :=
  ⟨⟨"gw1", 0⟩, Option.none, .eventBased, ⟨["f1"], [1]⟩, 2, Option.none, Option.none⟩

/-- `pdC2` with the two-input gateway at the entry. -/
def pdC2b : ProcessData :=
  { pdC2 with
    data :=
      [ .gateway gwC2b
      , .sequenceFlow ⟨"f1", 1⟩ Option.none ⟨"end2", 2⟩ Option.none
      , .event endC2 ] }

/-!
Claim theorems.
-/

/-- C1: the spec says `run` returns `ProcessOutput{data, end_node}` carrying
the last process's terminating end event.  The code executes each Process of
the Definitions block but returns the bare user data: on the minimal diagram
the engine's `execute` does reach the end event `endC1` (id `end1`, name
`Done`, symbol `Message`), yet `run` discards it and yields only the data
`42`; no `ProcessOutput`/`EndNode` value is ever constructed. -/
theorem run_drops_end_node_C1 :
    pC1.executeFuel 9 pdC1 42 = Except.ok (some (endC1, 42))
    ∧ pC1.run 9 42 = Except.ok (some 42) := by
  constructor <;> rfl

/-- C2 (amended): reaching an event-based gateway with exactly one outgoing
sequence flow fails with `BpmnRequirement` carrying the
at-least-two-outgoing message, unless the gateway also has exactly one
input — the engine's 1-output/1-input arm then passes through it before the
event-gateway check is reached. -/
theorem event_gateway_single_outgoing_C2 {T : Type} (p : Process T)
    (subExec : ProcessData → T → Except Error (Option (Event × T)))
    (pd : ProcessData) (gw : Gateway) (idx fuel : Nat) (st : T)
    (hnode : pd.get idx = some (.gateway gw))
    (htype : gw.gatewayType = .eventBased)
    (hout : gw.outputs.len = 1)
    (hin : gw.inputs ≠ 1) :
    p.flowGo subExec pd (fuel + 1) idx st
      = Except.error (Error.bpmnRequirement AT_LEAST_TWO_OUTGOING) := by
  simp only [Process.flowGo, hnode, htype, hout]
  simp [hin]

/-- C2 counterexample: the event-based gateway `gwC2` has exactly one
outgoing sequence flow, yet reaching it does not fail: with one input the
engine passes through and the token reaches the end event `endC2`. -/
theorem event_gateway_single_outgoing_C2_cex :
    gwC2.gatewayType = GatewayType.eventBased
    ∧ gwC2.outputs.len = 1
    ∧ pC1.flowGo noSub pdC2 5 0 7 = Except.ok (some (Return.ended endC2, 7))
    ∧ pC1.flowGo noSub pdC2 5 0 7
        ≠ Except.error (Error.bpmnRequirement AT_LEAST_TWO_OUTGOING) := by
  refine ⟨rfl, rfl, by rfl, ?_⟩
  intro h
  exact absurd ((by rfl : pC1.flowGo noSub pdC2 5 0 7
    = Except.ok (some (Return.ended endC2, 7))) ▸ h) (by simp)

/-- C2 witness: with two inputs, the one-outgoing event-based gateway `gwC2b`
does fail with the at-least-two-outgoing `BpmnRequirement`. -/
theorem event_gateway_single_outgoing_C2_wit :
    pC1.flowGo noSub pdC2b 5 0 7
      = Except.error (Error.bpmnRequirement AT_LEAST_TWO_OUTGOING) :=
  event_gateway_single_outgoing_C2 pC1 noSub pdC2b gwC2b 0 4 7
    (by rfl) (by rfl) (by rfl) (by decide)

/-- C3: when a token's `flow` reaches an End event carrying Terminate or
Cancel, the engine returns that event immediately as a successful result: the
remaining tokens of the frontier and all remaining frontiers are never
advanced, and neither the previously recorded last end event nor any other
one is returned. -/
theorem terminate_end_short_circuits_C3 {T : Type} (p : Process T) (pd : ProcessData)
    (flowFn : Nat → T → Except Error (Option (Return × T)))
    (token : Nat) (rest : List Nat) (frontiers : List (List Nat))
    (h : ExecuteHandler) (lastEnd : Option Event) (st st' : T) (ev : Event) (fuel : Nat)
    (hflow : flowFn token st = Except.ok (some (Return.ended ev, st')))
    (htype : ev.eventType = EventType.endEvent)
    (hsym : ev.symbol = some Symbol.terminate ∨ ev.symbol = some Symbol.cancel) :
    processTokens flowFn (token :: rest) h lastEnd st = Except.ok (RoundOut.finished ev st')
    ∧ p.processFrontiers pd flowFn ((token :: rest) :: frontiers) h lastEnd st
        = Except.ok (RoundOut.finished ev st')
    ∧ (h.tokensReady = frontiers ++ [token :: rest] →
        p.rounds pd flowFn (fuel + 1) h lastEnd st = Except.ok (some (ev, st'))) := by
  have hcond : (ev.eventType == EventType.endEvent
      && (ev.symbol == some Symbol.terminate || ev.symbol == some Symbol.cancel)) = true := by
    rcases hsym with h1 | h1 <;> simp [htype, h1]
  have htok : ∀ h' : ExecuteHandler,
      processTokens flowFn (token :: rest) h' lastEnd st
        = Except.ok (RoundOut.finished ev st') := by
    intro h'
    simp only [processTokens, hflow, hcond, if_true]
  have hfr : ∀ (h' : ExecuteHandler) (fr2 : List (List Nat)),
      p.processFrontiers pd flowFn ((token :: rest) :: fr2) h' lastEnd st
        = Except.ok (RoundOut.finished ev st') := by
    intro h' fr2
    simp only [Process.processFrontiers, htok]
  refine ⟨htok h, hfr h frontiers, ?_⟩
  intro hready
  simp only [Process.rounds, hready]
  have hne : (frontiers ++ [token :: rest]).isEmpty = false := by simp
  simp only [hne, List.reverse_append, List.reverse_cons, List.reverse_nil,
    List.nil_append, List.cons_append, Bool.false_eq_true, if_false]
  rw [hfr]

/-- The End event with symbol Terminate used by the C3 witness. -/
def evTerm : Event :=
  ⟨⟨"endT", 5⟩, Option.none, .endEvent, some .terminate, ⟨[], []⟩, Option.none⟩

/-- A flow function that ends with `evTerm` on token 0 and fails on every
other token: reaching any other token would abort the run. -/
def flowFnC3 : Nat → Nat → Except Error (Option (Return × Nat)) :=
  fun token st =>
    if token = 0 then .ok (some (.ended evTerm, st + 1)) else .error .missingEndEvent

/-- Two ready frontiers: `[9]` (would fail if advanced) and `[0, 7]` whose
first token terminates; token 7 and frontier `[9]` are abandoned. -/
def handlerC3 : ExecuteHandler := ⟨[[9], [0, 7]], [], []⟩

/-- C3 witness: the terminating end event is returned and the other live
tokens (which would error if advanced) are never reached. -/
theorem terminate_end_short_circuits_C3_wit :
    processTokens flowFnC3 [0, 7] handlerC3 Option.none 3
      = Except.ok (RoundOut.finished evTerm 4)
    ∧ pC1.rounds pdC1 flowFnC3 6 handlerC3 Option.none 3
      = Except.ok (some (evTerm, 4)) := by
  have h := terminate_end_short_circuits_C3 pC1 pdC1 flowFnC3 0 [7] [[9]] handlerC3
    Option.none 3 4 evTerm 5 (by rfl) (by rfl) (Or.inl (by rfl))
  exact ⟨h.1, h.2.2 (by rfl)⟩

/-- Gateways whose `id.local()` is already seen are all dropped by the
unbalanced-diagram `retain`. -/
theorem dedupByLocalId_replicate_mem (g : Gateway) :
    ∀ (n : Nat) (seen : List Nat), g.id.localId ∈ seen →
      dedupByLocalId (List.replicate n g) seen = [] := by
  intro n
  induction n with
  | zero => intro seen _; simp [dedupByLocalId]
  | succ m ih =>
    intro seen hseen
    simp only [List.replicate_succ, dedupByLocalId, if_pos hseen]
    exact ih seen hseen

/-- The `retain` of `check_unbalanced_diagram` keeps exactly one gateway out
of `n ≥ 1` copies of the same gateway. -/
theorem dedupByLocalId_replicate (g : Gateway) (n : Nat) (hn : 1 ≤ n) :
    dedupByLocalId (List.replicate n g) [] = [g] := by
  obtain ⟨m, rfl⟩ := Nat.exists_eq_add_of_le' hn
  simp only [List.replicate_succ, dedupByLocalId]
  rw [if_neg (List.not_mem_nil _)]
  rw [dedupByLocalId_replicate_mem g m _ (by simp)]

/-- C4: for a Parallel join gateway with `inputs = k`, once the fork's
frontier is fully consumed with `j ≥ 1` recorded arrivals at that gateway:
with `j = k` the engine pops the accounting record and fires the gateway
exactly once (its outputs become one immediate frontier when it has a single
output, one pending fork otherwise); with `j < k` the run errors with
`BpmnRequirement`. -/
theorem parallel_join_token_accounting_C4 (h : ExecuteHandler) (td : TokenData)
    (rest : List TokenData) (gw : Gateway) (k j : Nat)
    (hstack : h.tokenStack = td :: rest)
    (hconsumed : td.consumed = td.created)
    (hjoined : td.joined = List.replicate j gw)
    (hpar : gw.gatewayType = .parallel)
    (hk : gw.inputs = k)
    (hj : 1 ≤ j) :
    (j = k →
      h.tokens_consumed = Except.ok (({ h with tokenStack := rest } : ExecuteHandler), some gw)
      ∧ (∀ (T : Type) (p : Process T) (pd : ProcessData) (st : T), gw.outputs.len = 1 →
          p.afterFrontier pd h st
            = Except.ok (ExecuteHandler.immediate { h with tokenStack := rest } gw.outputs.ids, st))
      ∧ (∀ (T : Type) (p : Process T) (pd : ProcessData) (st : T), gw.outputs.len ≠ 1 →
          p.afterFrontier pd h st
            = Except.ok (ExecuteHandler.pending_fork { h with tokenStack := rest } gw.outputs.ids, st)))
    ∧ (j < k →
      h.tokens_consumed = Except.error (Error.bpmnRequirement
        ("Execution stopped. Not enough tokens at " ++ gw.display))) := by
  have hhead : (List.replicate j gw).head? = some gw := by
    obtain ⟨m, rfl⟩ := Nat.exists_eq_add_of_le' hj
    simp [List.replicate_succ]
  have hcons : td.isConsumed = true := by
    simp [TokenData.isConsumed, hconsumed]
  constructor
  · intro hjk
    subst hjk
    have hok : h.tokens_consumed
        = Except.ok (({ h with tokenStack := rest } : ExecuteHandler), some gw) := by
      simp only [ExecuteHandler.tokens_consumed, hstack, hcons, if_true, hjoined, hhead]
      have hguard : (gw.gatewayType == GatewayType.parallel
          && (List.replicate j gw).length < gw.inputs) = false := by
        simp [hk]
      simp only [hguard, Bool.false_eq_true, if_false]
      simp [check_unbalanced_diagram, dedupByLocalId_replicate gw j hj]
    refine ⟨hok, ?_, ?_⟩
    · intro T p pd st hlen
      simp only [Process.afterFrontier, hok]
      simp [hpar, hlen]
    · intro T p pd st hlen
      simp only [Process.afterFrontier, hok]
      simp [hpar, hlen]
  · intro hjk
    simp only [ExecuteHandler.tokens_consumed, hstack, hcons, if_true, hjoined, hhead]
    have hguard : (gw.gatewayType == GatewayType.parallel
        && decide ((List.replicate j gw).length < gw.inputs)) = true := by
      simp [hpar, hk, hjk]
    simp only [hguard, if_true]

/-- The parallel join gateway (two inputs, two outputs) of the C4 witness. -/
def gwC4 : Gateway :=
  ⟨⟨"join1", 4⟩, Option.none, .parallel, ⟨["f5", "f6"], [5, 6]⟩, 2, Option.none, Option.none⟩

/-- A fully consumed frontier record with both arrivals at `gwC4`. -/
def handlerC4 : ExecuteHandler := ⟨[], [], [⟨2, [gwC4, gwC4], 2⟩]⟩

/-- A fully consumed frontier record with only one arrival at `gwC4` (the
other token ended elsewhere). -/
def handlerC4b : ExecuteHandler := ⟨[], [], [⟨2, [gwC4], 2⟩]⟩

/-- C4 witness: two arrivals fire the two-output join exactly once as a
pending fork; a single arrival errors with `BpmnRequirement`. -/
theorem parallel_join_token_accounting_C4_wit :
    handlerC4.tokens_consumed
      = Except.ok (({ handlerC4 with tokenStack := [] } : ExecuteHandler), some gwC4)
    ∧ pC1.afterFrontier pdC1 handlerC4 11
      = Except.ok (ExecuteHandler.pending_fork { handlerC4 with tokenStack := [] } gwC4.outputs.ids, 11)
    ∧ handlerC4b.tokens_consumed = Except.error (Error.bpmnRequirement
        ("Execution stopped. Not enough tokens at " ++ gwC4.display)) := by
  have h1 := (parallel_join_token_accounting_C4 handlerC4 ⟨2, [gwC4, gwC4], 2⟩ [] gwC4 2 2
    rfl rfl rfl rfl rfl (by decide)).1 rfl
  have h2 := (parallel_join_token_accounting_C4 handlerC4b ⟨2, [gwC4], 2⟩ [] gwC4 2 1
    rfl rfl rfl rfl rfl (by decide)).2 (by decide)
  exact ⟨h1.1, h1.2.2 Nat pC1 pdC1 11 (by decide), h2⟩

/-- A string is a member of the missing set after its own insertion. -/
theorem mem_insertMissing (missing : List String) (s : String) :
    s ∈ insertMissing missing s := by
  unfold insertMissing
  split
  · assumption
  · simp

/-- Insertion only appends. -/
theorem insertMissing_prefix (missing : List String) (s : String) :
    ∃ ext, insertMissing missing s = missing ++ ext := by
  unfold insertMissing
  split
  · exact ⟨[], by simp⟩
  · exact ⟨[s], rfl⟩

/-- The missing set of one installation step extends its input. -/
theorem installBpmn_missing_prefix (hm : HandlerMap) (b : Bpmn) (missing : List String) :
    ∃ ext, (installBpmn hm b missing).2 = missing ++ ext := by
  unfold installBpmn
  split
  · split
    · exact ⟨[], by simp⟩
    · exact insertMissing_prefix missing b.descriptor
  · exact ⟨[], by simp⟩

/-- Unfolding `installList` over one node: the output list. -/
theorem installList_cons_fst (hm : HandlerMap) (b : Bpmn) (rest : List Bpmn)
    (missing : List String) :
    (installList hm (b :: rest) missing).1
      = (installBpmn hm b missing).1
        :: (installList hm rest (installBpmn hm b missing).2).1 := rfl

/-- Unfolding `installList` over one node: the missing set. -/
theorem installList_cons_snd (hm : HandlerMap) (b : Bpmn) (rest : List Bpmn)
    (missing : List String) :
    (installList hm (b :: rest) missing).2
      = (installList hm rest (installBpmn hm b missing).2).2 := rfl

/-- Unfolding `installData` over one block: the output blocks. -/
theorem installData_cons_fst (hm : HandlerMap) (pd : ProcessData)
    (rest : List ProcessData) (missing : List String) :
    (installData hm (pd :: rest) missing).1
      = { pd with data := (installList hm pd.data missing).1 }
        :: (installData hm rest (installList hm pd.data missing).2).1 := rfl

/-- Unfolding `installData` over one block: the missing set. -/
theorem installData_cons_snd (hm : HandlerMap) (pd : ProcessData)
    (rest : List ProcessData) (missing : List String) :
    (installData hm (pd :: rest) missing).2
      = (installData hm rest (installList hm pd.data missing).2).2 := rfl

/-- The missing set of a node-list walk extends its input. -/
theorem installList_missing_prefix (hm : HandlerMap) :
    ∀ (l : List Bpmn) (missing : List String),
      ∃ ext, (installList hm l missing).2 = missing ++ ext := by
  intro l
  induction l with
  | nil => intro missing; exact ⟨[], by simp [installList]⟩
  | cons b rest ih =>
    intro missing
    rw [installList_cons_snd]
    obtain ⟨e1, h1⟩ := installBpmn_missing_prefix hm b missing
    obtain ⟨e2, h2⟩ := ih (installBpmn hm b missing).2
    exact ⟨e1 ++ e2, by rw [h2, h1, List.append_assoc]⟩

/-- The missing set of a block-list walk extends its input. -/
theorem installData_missing_prefix (hm : HandlerMap) :
    ∀ (blocks : List ProcessData) (missing : List String),
      ∃ ext, (installData hm blocks missing).2 = missing ++ ext := by
  intro blocks
  induction blocks with
  | nil => intro missing; exact ⟨[], by simp [installData]⟩
  | cons pd rest ih =>
    intro missing
    rw [installData_cons_snd]
    obtain ⟨e1, h1⟩ := installList_missing_prefix hm pd.data missing
    obtain ⟨e2, h2⟩ := ih (installList hm pd.data missing).2
    exact ⟨e1 ++ e2, by rw [h2, h1, List.append_assoc]⟩

/-- A required node with no registered handler under its name-or-id key has
its descriptor in the missing set after the node-list walk. -/
theorem installList_records_unbound (hm : HandlerMap) :
    ∀ (l : List Bpmn) (missing : List String) (b : Bpmn),
      b ∈ l → b.requiresHandler = true → hm b.handlerKind b.nameOrId = Option.none →
      b.descriptor ∈ (installList hm l missing).2 := by
  intro l
  induction l with
  | nil => intro missing b hb; exact absurd hb (List.not_mem_nil b)
  | cons a rest ih =>
    intro missing b hb hreq hnone
    rw [installList_cons_snd]
    rcases List.mem_cons.mp hb with rfl | hb'
    · obtain ⟨ext, hext⟩ := installList_missing_prefix hm rest (installBpmn hm b missing).2
      rw [hext]
      apply List.mem_append_left
      unfold installBpmn
      rw [if_pos hreq, hnone]
      exact mem_insertMissing missing b.descriptor
    · exact ih (installBpmn hm a missing).2 b hb' hreq hnone

/-- A required node with no registered handler has its descriptor in the
missing set after the whole-diagram walk. -/
theorem installData_records_unbound (hm : HandlerMap) :
    ∀ (blocks : List ProcessData) (missing : List String) (pd : ProcessData) (b : Bpmn),
      pd ∈ blocks → b ∈ pd.data → b.requiresHandler = true →
      hm b.handlerKind b.nameOrId = Option.none →
      b.descriptor ∈ (installData hm blocks missing).2 := by
  intro blocks
  induction blocks with
  | nil => intro missing pd b hpd; exact absurd hpd (List.not_mem_nil pd)
  | cons q rest ih =>
    intro missing pd b hpd hb hreq hnone
    rw [installData_cons_snd]
    rcases List.mem_cons.mp hpd with rfl | hpd'
    · obtain ⟨ext, hext⟩ := installData_missing_prefix hm rest (installList hm pd.data missing).2
      rw [hext]
      exact List.mem_append_left _ (installList_records_unbound hm pd.data missing b hb hreq hnone)
    · exact ih (installList hm q.data missing).2 pd b hpd' hb hreq hnone

/-- Setting the callback index of a node that requires one binds it. -/
theorem funcIdxSet_setFuncIdx (b : Bpmn) (i : Nat) (hreq : b.requiresHandler = true) :
    (b.setFuncIdx i).funcIdxSet = true := by
  cases b <;> simp_all [Bpmn.requiresHandler, Bpmn.setFuncIdx, Bpmn.funcIdxSet]

/-- Insertion never produces the empty set. -/
theorem insertMissing_ne_nil (missing : List String) (s : String) :
    insertMissing missing s ≠ [] := by
  unfold insertMissing
  split
  · intro hnil
    subst hnil
    simp_all
  · simp

/-- After one installation step with an empty missing set, a node that
requires a handler is bound. -/
theorem installBpmn_bound (hm : HandlerMap) (a : Bpmn) (missing : List String)
    (hmiss : (installBpmn hm a missing).2 = [])
    (hreq : (installBpmn hm a missing).1.requiresHandler = true) :
    (installBpmn hm a missing).1.funcIdxSet = true := by
  by_cases hra : a.requiresHandler = true
  · unfold installBpmn at hmiss ⊢
    rw [if_pos hra] at hmiss ⊢
    cases hlook : hm a.handlerKind a.nameOrId with
    | none =>
      rw [hlook] at hmiss
      exact absurd hmiss (insertMissing_ne_nil missing a.descriptor)
    | some i => exact funcIdxSet_setFuncIdx a i hra
  · unfold installBpmn at hreq
    rw [if_neg hra] at hreq
    exact absurd hreq hra

/-- When the node-list walk ends with an empty missing set, every node of its
output that requires a handler is bound. -/
theorem installList_empty_bound (hm : HandlerMap) :
    ∀ (l : List Bpmn) (missing : List String),
      (installList hm l missing).2 = [] →
      ∀ b' ∈ (installList hm l missing).1, b'.requiresHandler = true → b'.funcIdxSet = true := by
  intro l
  induction l with
  | nil => intro missing _ b' hb'; exact absurd hb' (List.not_mem_nil b')
  | cons a rest ih =>
    intro missing hempty b' hb' hreq
    rw [installList_cons_snd] at hempty
    rw [installList_cons_fst] at hb'
    have hmiss1 : (installBpmn hm a missing).2 = [] := by
      obtain ⟨ext, hext⟩ := installList_missing_prefix hm rest (installBpmn hm a missing).2
      rw [hext] at hempty
      exact (List.append_eq_nil.mp hempty).1
    rcases List.mem_cons.mp hb' with rfl | hb''
    · exact installBpmn_bound hm a missing hmiss1 hreq
    · exact ih (installBpmn hm a missing).2 hempty b' hb'' hreq

/-- When the whole-diagram walk ends with an empty missing set, every node of
its output that requires a handler is bound. -/
theorem installData_empty_bound (hm : HandlerMap) :
    ∀ (blocks : List ProcessData) (missing : List String),
      (installData hm blocks missing).2 = [] →
      ∀ pd' ∈ (installData hm blocks missing).1, ∀ b' ∈ pd'.data,
        b'.requiresHandler = true → b'.funcIdxSet = true := by
  intro blocks
  induction blocks with
  | nil => intro missing _ pd' hpd'; exact absurd hpd' (List.not_mem_nil pd')
  | cons q rest ih =>
    intro missing hempty pd' hpd' b' hb' hreq
    rw [installData_cons_snd] at hempty
    rw [installData_cons_fst] at hpd'
    have hmiss1 : (installList hm q.data missing).2 = [] := by
      obtain ⟨ext, hext⟩ := installData_missing_prefix hm rest (installList hm q.data missing).2
      rw [hext] at hempty
      exact (List.append_eq_nil.mp hempty).1
    rcases List.mem_cons.mp hpd' with rfl | hpd''
    · exact installList_empty_bound hm q.data missing hmiss1 b' hb' hreq
    · exact ih (installList hm q.data missing).2 hempty pd' hpd'' b' hb' hreq

/-- C5: after a successful `build`, every activity of a task kind and every
Exclusive/Inclusive/EventBased gateway with more than one output, in every
block, has a bound `func_idx`; and when any such node has no registered
handler under its name (or, absent a name, its bpmn id), `build` fails with
`MissingImplementations` whose missing set contains every such offender's
descriptor. -/
theorem build_binds_required_handlers_C5 (d : Diagram) (hm : HandlerMap) :
    (∀ d', d.build hm = Except.ok d' →
      ∀ pd ∈ d'.data, ∀ b ∈ pd.data, b.requiresHandler = true → b.funcIdxSet = true)
    ∧ (∀ pd ∈ d.data, ∀ b ∈ pd.data, b.requiresHandler = true →
        hm b.handlerKind b.nameOrId = Option.none →
        b.descriptor ∈ (d.install_and_check hm).2
        ∧ d.build hm = Except.error (Error.missingImplementations
            (String.intercalate ", " (d.install_and_check hm).2))) := by
  constructor
  · intro d' hok pd hpd b hb hreq
    unfold Diagram.build at hok
    by_cases hnil : ((d.install_and_check hm).2).isEmpty
    · rw [if_pos hnil] at hok
      cases hok
      have hempty : (installData hm d.data []).2 = [] := List.isEmpty_iff.mp hnil
      exact installData_empty_bound hm d.data [] hempty pd hpd b hb hreq
    · rw [if_neg hnil] at hok
      cases hok
  · intro pd hpd b hb hreq hnone
    have hmem : b.descriptor ∈ (installData hm d.data []).2 :=
      installData_records_unbound hm d.data [] pd b hpd hb hreq hnone
    have hne : ((installData hm d.data []).2.isEmpty) = false := by
      rcases hmem' : (installData hm d.data []).2 with _ | ⟨x, xs⟩
      · rw [hmem'] at hmem; exact absurd hmem (List.not_mem_nil _)
      · simp
    constructor
    · exact hmem
    · unfold Diagram.build
      rw [if_neg (by simp [Diagram.install_and_check, hne])]

/-- C6: at a single-input inclusive gateway with more than one output, the
selected outputs come from the callback: `With::Default` and
`With::Fork([])` both follow the gateway's default flow, and
`With::Fork([a, a, b])` advances along exactly the deduplicated resolved
flows `[ra, rb]`. -/
theorem inclusive_fork_dedup_default_C6 {T : Type} (p : Process T)
    (subExec : ProcessData → T → Except Error (Option (Event × T)))
    (pd : ProcessData) (gw : Gateway) (idx fuel fi : Nat) (st st' : T)
    (a b : String) (ra rb : Nat) (did : Id)
    (hnode : pd.get idx = some (.gateway gw))
    (htype : gw.gatewayType = .inclusive)
    (hin : gw.inputs = 1)
    (hlen : 2 ≤ gw.outputs.len)
    (hfunc : gw.funcIdx = some fi)
    (hdef : gw.default = some did) :
    (p.handler.run fi st = (some (.inclusive .default), st') →
      p.flowGo subExec pd (fuel + 1) idx st
        = Except.ok (some (Return.fork [did.localId], st')))
    ∧ (p.handler.run fi st = (some (.inclusive (.fork [])), st') →
      p.flowGo subExec pd (fuel + 1) idx st
        = Except.ok (some (Return.fork [did.localId], st')))
    ∧ (p.handler.run fi st = (some (.inclusive (.fork [a, a, b])), st') →
      pd.find_by_name_or_id a gw.outputs = some ra →
      pd.find_by_name_or_id b gw.outputs = some rb →
      ra ≠ rb →
      p.flowGo subExec pd (fuel + 1) idx st
        = Except.ok (some (Return.fork [ra, rb], st'))) := by
  have h0 : (gw.outputs.len == 0) = false := by
    simp only [beq_eq_false_iff_ne, ne_eq]
    omega
  have h1 : (gw.outputs.len == 1) = false := by
    simp only [beq_eq_false_iff_ne, ne_eq]
    omega
  have hred : p.flowGo subExec pd (fuel + 1) idx st
      = (match p.handle_inclusive_gateway pd gw st with
          | .error err => .error err
          | .ok (ids, st2) => .ok (some (.fork ids, st2))) := by
    simp only [Process.flowGo, hnode, htype, h0, h1, Bool.false_and, Bool.false_eq_true,
      if_false, hin]
    rw [if_neg (by omega)]
  refine ⟨?_, ?_, ?_⟩
  · intro hrun
    rw [hred]
    simp only [Process.handle_inclusive_gateway, hfunc, hrun, Gateway.default_path, hdef]
  · intro hrun
    rw [hred]
    simp only [Process.handle_inclusive_gateway, hfunc, hrun, Gateway.default_path, hdef]
  · intro hrun hfa hfb hne
    rw [hred]
    simp only [Process.handle_inclusive_gateway, hfunc, hrun, resolveDedup, hfa, hfb]
    rw [if_neg (List.not_mem_nil ra)]
    rw [if_pos (show ra ∈ ([] : List Nat) ++ [ra] by simp)]
    rw [if_neg (show rb ∉ ([] : List Nat) ++ [ra] by simp; omega)]
    simp

/-- The inclusive gateway of the C6 witness: two named outputs `A`, `B` plus
a default flow. -/
def gwC6 : Gateway :=
  ⟨⟨"incl1", 0⟩, Option.none, .inclusive, ⟨["fA", "fB"], [1, 2]⟩, 1, some ⟨"fA", 1⟩, some 0⟩

/-- A block whose entry is `gwC6`, with two named sequence flows. -/
def pdC6 : ProcessData :=
  { start := Option.none
    data :=
      [ .gateway gwC6
      , .sequenceFlow ⟨"fA", 1⟩ (some "A") ⟨"endA", 3⟩ Option.none
      , .sequenceFlow ⟨"fB", 2⟩ (some "B") ⟨"endB", 4⟩ Option.none
      , .event ⟨⟨"endA", 3⟩, Option.none, .endEvent, Option.none, ⟨[], []⟩, Option.none⟩
      , .event ⟨⟨"endB", 4⟩, Option.none, .endEvent, Option.none, ⟨[], []⟩, Option.none⟩ ]
    boundaries := []
    catchEventLinks := [] }

/-- A process whose only callback answers the inclusive gateway with
`Fork(["A", "A", "B"])`. -/
def pC6 : Process Nat :=
  { diagram := ⟨[pdC6]⟩
    handler := ⟨fun _ st => (some (.inclusive (.fork ["A", "A", "B"])), st + 1)⟩ }

/-- A process whose only callback answers the inclusive gateway with
`With::Default`. -/
def pC6b : Process Nat :=
  { diagram := ⟨[pdC6]⟩
    handler := ⟨fun _ st => (some (.inclusive .default), st + 1)⟩ }

/-- C6 witness: `Fork(["A","A","B"])` advances along exactly `{fA, fB}` (the
duplicate discarded), and `Default` follows the default flow `fA`. -/
theorem inclusive_fork_dedup_default_C6_wit :
    pC6.flowGo noSub pdC6 3 0 7 = Except.ok (some (Return.fork [1, 2], 8))
    ∧ pC6b.flowGo noSub pdC6 3 0 7 = Except.ok (some (Return.fork [1], 8)) := by
  have h1 := (inclusive_fork_dedup_default_C6 pC6 noSub pdC6 gwC6 0 2 0 7 8 "A" "B" 1 2
    ⟨"fA", 1⟩ (by rfl) (by rfl) (by rfl) (by decide) (by rfl) (by rfl)).2.2
    (by rfl) (by rfl) (by rfl) (by decide)
  have h2 := (inclusive_fork_dedup_default_C6 pC6b noSub pdC6 gwC6 0 2 0 7 8 "A" "B" 1 2
    ⟨"fA", 1⟩ (by rfl) (by rfl) (by rfl) (by decide) (by rfl) (by rfl)).1 (by rfl)
  exact ⟨h1, h2⟩

/-- A found name-or-id output is one of the gateway's outputs and is a
sequence flow whose name or bpmn id is the searched value. -/
theorem find_by_name_or_id_mem (pd : ProcessData) (v : String) (outs : Outputs) (r : Nat)
    (h : pd.find_by_name_or_id v outs = some r) :
    r ∈ outs.localIds
    ∧ ∃ id name target src, pd.data[r]? = some (Bpmn.sequenceFlow id name target src)
        ∧ (name = some v ∨ id.bpmnId = v) := by
  refine ⟨List.mem_of_find?_eq_some h, ?_⟩
  have hp := List.find?_some h
  revert hp
  cases hnode : pd.data[r]? with
  | none => intro hp; exact absurd hp (by simp)
  | some bn =>
    cases bn with
    | sequenceFlow id name target src =>
      intro hp
      refine ⟨id, name, target, src, rfl, ?_⟩
      cases name with
      | none =>
        simp only [Bool.false_or, Bool.or_eq_true, beq_iff_eq] at hp
        exact Or.inr hp
      | some n =>
        simp only [Bool.or_eq_true, beq_iff_eq] at hp
        rcases hp with hl | hr
        · exact Or.inl (by rw [hl])
        · exact Or.inr hr
    | definitions id => intro hp; exact absurd hp (by simp)
    | process id di => intro hp; exact absurd hp (by simp)
    | event e => intro hp; exact absurd hp (by simp)
    | activity a2 => intro hp; exact absurd hp (by simp)
    | gateway g2 => intro hp; exact absurd hp (by simp)
    | direction dt t => intro hp; exact absurd hp (by simp)

/-- When no output matches, no output sequence flow carries the searched name
or bpmn id. -/
theorem find_by_name_or_id_none (pd : ProcessData) (v : String) (outs : Outputs)
    (h : pd.find_by_name_or_id v outs = Option.none) :
    ∀ r ∈ outs.localIds, ∀ id name target src,
      pd.data[r]? = some (Bpmn.sequenceFlow id name target src) →
      name ≠ some v ∧ id.bpmnId ≠ v := by
  intro r hr id name target src hnode
  have hp := List.find?_eq_none.mp h r hr
  rw [hnode] at hp
  constructor
  · intro hname
    subst hname
    simp at hp
  · intro hid
    subst hid
    simp at hp

/-- C7: at a multi-output exclusive gateway, a callback answer `Some v`
selects the first output sequence flow whose name or bpmn id equals `v`
(`MissingOutput` when none matches); a `None` answer takes the default flow,
and `MissingDefault` aborts the run when no default is set. -/
theorem exclusive_gateway_selection_C7 {T : Type} (p : Process T)
    (subExec : ProcessData → T → Except Error (Option (Event × T)))
    (pd : ProcessData) (gw : Gateway) (idx fuel fi : Nat) (st st' : T) (v : String)
    (hnode : pd.get idx = some (.gateway gw))
    (htype : gw.gatewayType = .exclusive)
    (hlen : 2 ≤ gw.outputs.len)
    (hfunc : gw.funcIdx = some fi) :
    (p.handler.run fi st = (some (.exclusive (some v)), st') →
      (∀ r, pd.find_by_name_or_id v gw.outputs = some r →
        p.flowGo subExec pd (fuel + 1) idx st = p.flowGo subExec pd fuel r st'
        ∧ r ∈ gw.outputs.localIds
        ∧ ∃ id name target src, pd.data[r]? = some (Bpmn.sequenceFlow id name target src)
            ∧ (name = some v ∨ id.bpmnId = v))
      ∧ (pd.find_by_name_or_id v gw.outputs = Option.none →
        p.flowGo subExec pd (fuel + 1) idx st
          = Except.error (Error.missingOutput gw.display)
        ∧ ∀ r ∈ gw.outputs.localIds, ∀ id name target src,
            pd.data[r]? = some (Bpmn.sequenceFlow id name target src) →
            name ≠ some v ∧ id.bpmnId ≠ v))
    ∧ (p.handler.run fi st = (some (.exclusive Option.none), st') →
      (∀ did, gw.default = some did →
        p.flowGo subExec pd (fuel + 1) idx st = p.flowGo subExec pd fuel did.localId st')
      ∧ (gw.default = Option.none →
        p.flowGo subExec pd (fuel + 1) idx st
          = Except.error (Error.missingDefault gw.display))) := by
  have h0 : (gw.outputs.len == 0) = false := by
    simp only [beq_eq_false_iff_ne, ne_eq]
    omega
  have h1 : (gw.outputs.len == 1) = false := by
    simp only [beq_eq_false_iff_ne, ne_eq]
    omega
  have hred : ∀ res : Option CallbackResult × T, p.handler.run fi st = res →
      p.flowGo subExec pd (fuel + 1) idx st
        = (match (match res.1 with
                  | some (.exclusive r) => r
                  | _ => Option.none : Option String) with
            | some value =>
              match pd.find_by_name_or_id value gw.outputs with
              | some next => p.flowGo subExec pd fuel next res.2
              | Option.none => .error (.missingOutput gw.display)
            | Option.none =>
              match gw.default_path with
              | .error err => .error err
              | .ok next => p.flowGo subExec pd fuel next res.2) := by
    intro res hres
    simp only [Process.flowGo, hnode, htype, h0, h1, Bool.false_and, Bool.false_eq_true,
      if_false, hfunc, hres]
  constructor
  · intro hrun
    constructor
    · intro r hfind
      have h := hred _ hrun
      simp only [hfind] at h
      exact ⟨h, (find_by_name_or_id_mem pd v gw.outputs r hfind).1,
        (find_by_name_or_id_mem pd v gw.outputs r hfind).2⟩
    · intro hfind
      have h := hred _ hrun
      simp only [hfind] at h
      exact ⟨h, find_by_name_or_id_none pd v gw.outputs hfind⟩
  · intro hrun
    constructor
    · intro did hdef
      have h := hred _ hrun
      simp only [Gateway.default_path, hdef] at h
      exact h
    · intro hdef
      have h := hred _ hrun
      simp only [Gateway.default_path, hdef] at h
      exact h

/-- The exclusive gateway of the C7 witness: two named outputs, default
`fA`. -/
def gwC7 : Gateway :=
  ⟨⟨"excl1", 0⟩, Option.none, .exclusive, ⟨["fA", "fB"], [1, 2]⟩, 1, some ⟨"fA", 1⟩, some 0⟩

/-- A block whose entry is `gwC7`, with two named sequence flows. -/
def pdC7 : ProcessData :=
  { start := Option.none
    data :=
      [ .gateway gwC7
      , .sequenceFlow ⟨"fA", 1⟩ (some "A") ⟨"endA", 3⟩ Option.none
      , .sequenceFlow ⟨"fB", 2⟩ (some "B") ⟨"endB", 4⟩ Option.none
      , .event ⟨⟨"endA", 3⟩, Option.none, .endEvent, Option.none, ⟨[], []⟩, Option.none⟩
      , .event ⟨⟨"endB", 4⟩, Option.none, .endEvent, Option.none, ⟨[], []⟩, Option.none⟩ ]
    boundaries := []
    catchEventLinks := [] }

/-- A process whose only callback answers the exclusive gateway with
`Some "B"`. -/
def pC7 : Process Nat :=
  { diagram := ⟨[pdC7]⟩
    handler := ⟨fun _ st => (some (.exclusive (some "B")), st + 1)⟩ }

/-- A process whose only callback answers the exclusive gateway with
`None`. -/
def pC7b : Process Nat :=
  { diagram := ⟨[pdC7]⟩
    handler := ⟨fun _ st => (some (.exclusive Option.none), st + 1)⟩ }

/-- C7 witness: `Some "B"` selects the flow named `B` (local id 2), `None`
takes the default flow `fA` (local id 1). -/
theorem exclusive_gateway_selection_C7_wit :
    pC7.flowGo noSub pdC7 3 0 7 = pC7.flowGo noSub pdC7 2 2 8
    ∧ pC7b.flowGo noSub pdC7 3 0 7 = pC7b.flowGo noSub pdC7 2 1 8 := by
  have h1 := ((exclusive_gateway_selection_C7 pC7 noSub pdC7 gwC7 0 2 0 7 8 "B"
    (by rfl) (by rfl) (by decide) (by rfl)).1 (by rfl)).1 2 (by rfl)
  have h2 := ((exclusive_gateway_selection_C7 pC7b noSub pdC7 gwC7 0 2 0 7 8 "B"
    (by rfl) (by rfl) (by decide) (by rfl)).2 (by rfl)).1 ⟨"fA", 1⟩ (by rfl)
  exact ⟨h1.1, h2⟩

/-- C8: popping a sequence flow element that was opened with separate start
and end tags — a conditional sequence flow — fails the build with
`NotSupported`. -/
theorem conditional_flow_rejected_C8 (b : DataBuilder) (id : Id) (name : Option String)
    (target : Id) (src : Option Id) (rest : List Bpmn)
    (hstack : b.stack = .sequenceFlow id name target src :: rest) :
    b.endTag = Except.error (Error.notSupported
      ((name.getD id.bpmnId) ++ ": " ++ "conditional sequence flow")) := by
  simp only [DataBuilder.endTag, hstack, check_unsupported]

/-- The builder state of the C8 witness: a sequence flow element is open. -/
def builderC8 : DataBuilder :=
  ⟨[], [], [.sequenceFlow ⟨"f1", 0⟩ Option.none ⟨"t", 0⟩ Option.none]⟩

/-- C8 witness: ending the open sequence flow element fails with
`NotSupported`. -/
theorem conditional_flow_rejected_C8_wit :
    builderC8.endTag = Except.error (Error.notSupported
      (("f1" : String) ++ ": " ++ "conditional sequence flow")) :=
  conditional_flow_rejected_C8 builderC8 ⟨"f1", 0⟩ Option.none ⟨"t", 0⟩ Option.none []
    (by rfl)

/-- C9 (amended): adding a second none-symbol start event fails with the
duplicate none-start `BpmnRequirement`; the recorded none-start index is
unchanged by every addition that succeeds, but the failing duplicate add has
already overwritten it with the duplicate's index when the error is
returned. -/
theorem duplicate_none_start_C9 (pd : ProcessData) (i : Nat) (b : Bpmn)
    (hstart : pd.start = some i) :
    (b.isNoneStart = true →
      pd.add b = ({ pd with start := some pd.data.length },
        some (Error.bpmnRequirement ONLY_ONE_START_EVENT)))
    ∧ (b.isNoneStart = false →
      (pd.add b).1.start = some i ∧ (pd.add b).2 = Option.none) := by
  constructor
  · intro hb
    simp only [ProcessData.add, hb, if_true]
    rw [if_pos (by simp [hstart])]
  · intro hb
    simp only [ProcessData.add, hb, Bool.false_eq_true, if_false]
    exact ⟨hstart, trivial⟩

/-- A block that already recorded its none-start event at index 0. -/
def pdC9 : ProcessData :=
  { start := some 0
    data := [.event ⟨⟨"s1", 0⟩, Option.none, .start, Option.none, ⟨[], []⟩, Option.none⟩]
    boundaries := []
    catchEventLinks := [] }

/-- A second none-symbol start event. -/
def startEventC9 : Bpmn :=
  .event ⟨⟨"s2", 0⟩, Option.none, .start, Option.none, ⟨[], []⟩, Option.none⟩

/-- A task node (not a none-start event). -/
def taskC9 : Bpmn :=
  .activity ⟨⟨"t1", 0⟩, Option.none, .task, ⟨[], []⟩, Option.none⟩

/-- C9 counterexample: the duplicate none-start add does return the
`BpmnRequirement` error, but the recorded first none-start index does not
stay unchanged — `Option::replace` has already overwritten `start` (0 becomes
1) when the error is returned. -/
theorem duplicate_none_start_C9_cex :
    (pdC9.add startEventC9).2 = some (Error.bpmnRequirement ONLY_ONE_START_EVENT)
    ∧ pdC9.start = some 0
    ∧ (pdC9.add startEventC9).1.start = some 1
    ∧ (pdC9.add startEventC9).1.start ≠ pdC9.start := by
  refine ⟨rfl, rfl, rfl, by decide⟩

/-- C9 witness: the duplicate none-start add fails and overwrites the
recorded index; a non-start addition succeeds and leaves it unchanged. -/
theorem duplicate_none_start_C9_wit :
    pdC9.add startEventC9
      = ({ pdC9 with start := some 1 }, some (Error.bpmnRequirement ONLY_ONE_START_EVENT))
    ∧ ((pdC9.add taskC9).1.start = some 0 ∧ (pdC9.add taskC9).2 = Option.none) :=
  ⟨(duplicate_none_start_C9 pdC9 0 startEventC9 rfl).1 rfl,
    (duplicate_none_start_C9 pdC9 0 taskC9 rfl).2 rfl⟩

/-- A node matches the boundary search exactly when it is an event whose
symbol is present and equal to the searched symbol and whose optional name
equals the searched optional name. -/
theorem boundaryMatch_eq_some_iff (n : Option String) (s : Symbol) (b : Bpmn) (r : Nat) :
    boundaryMatch n s b = some r ↔
    ∃ e, b = Bpmn.event e ∧ e.symbol = some s ∧ n = e.name ∧ r = e.id.localId := by
  cases b with
  | event e =>
    simp only [boundaryMatch]
    split
    next s' hsym =>
      by_cases hc : (s' == s && n == e.name) = true
      · rw [if_pos hc]
        simp only [Bool.and_eq_true, beq_iff_eq] at hc
        obtain ⟨hs, hn⟩ := hc
        subst hs
        constructor
        · intro h
          exact ⟨e, rfl, hsym, hn, (Option.some_inj.mp h).symm⟩
        · rintro ⟨e', he', hsym', hn', hr⟩
          cases he'
          rw [hr]
      · rw [if_neg hc]
        simp only [Bool.and_eq_true, beq_iff_eq, not_and] at hc
        constructor
        · intro h
          exact absurd h (by simp)
        · rintro ⟨e', he', hsym', hn', hr⟩
          cases he'
          rw [hsym] at hsym'
          exact absurd hn' (hc (Option.some_inj.mp hsym'))
    next hsym => simp [hsym]
  | definitions id => simp [boundaryMatch]
  | process id di => simp [boundaryMatch]
  | activity a => simp [boundaryMatch]
  | gateway g => simp [boundaryMatch]
  | sequenceFlow id nm t src => simp [boundaryMatch]
  | direction dt t => simp [boundaryMatch]

/-- A node fails the boundary search exactly when it is not a matching
event. -/
theorem boundaryMatch_eq_none_iff (n : Option String) (s : Symbol) (b : Bpmn) :
    boundaryMatch n s b = Option.none ↔
    ¬ ∃ e, b = Bpmn.event e ∧ e.symbol = some s ∧ n = e.name := by
  cases hbm : boundaryMatch n s b with
  | none =>
    simp only [true_iff]
    rintro ⟨e, he, hsym, hn⟩
    have : boundaryMatch n s b = some e.id.localId :=
      (boundaryMatch_eq_some_iff n s b e.id.localId).mpr ⟨e, he, hsym, hn, rfl⟩
    rw [hbm] at this
    exact absurd this (by simp)
  | some r =>
    obtain ⟨e, he, hsym, hn, _⟩ := (boundaryMatch_eq_some_iff n s b r).mp hbm
    constructor
    · intro h
      exact absurd h (by simp)
    · intro hne
      exact absurd ⟨e, he, hsym, hn⟩ hne

/-- C10: `find_boundary` returns `some r` exactly when the activity has
attached boundary events and, among their fetched nodes in attachment order,
the first boundary event whose symbol equals the searched symbol and whose
optional name is exactly the searched optional name has local id `r`.  In
particular a search without a name never matches a named boundary event, and
a named search never matches an unnamed one (`n = e.name` forces both). -/
theorem find_boundary_first_exact_match_C10 (pd : ProcessData) (activityId : Id)
    (n : Option String) (s : Symbol) (r : Nat) :
    pd.find_boundary activityId n s = some r ↔
    ∃ l, pd.activity_boundaries activityId = some l
      ∧ ∃ pre e post, l.filterMap pd.get = pre ++ Bpmn.event e :: post
          ∧ e.symbol = some s ∧ n = e.name ∧ r = e.id.localId
          ∧ ∀ b ∈ pre, ¬ ∃ e', b = Bpmn.event e' ∧ e'.symbol = some s ∧ n = e'.name := by
  have hdef : pd.find_boundary activityId n s
      = (pd.activity_boundaries activityId).bind
          (fun indices => (indices.filterMap pd.get).findSome? (boundaryMatch n s)) := rfl
  rw [hdef]
  cases hab : pd.activity_boundaries activityId with
  | none => simp
  | some l =>
    rw [Option.some_bind, List.findSome?_eq_some_iff]
    constructor
    · rintro ⟨pre, x, post, hsplit, hfx, hprev⟩
      obtain ⟨e, rfl, hsym, hn, hr⟩ := (boundaryMatch_eq_some_iff n s x r).mp hfx
      exact ⟨l, rfl, pre, e, post, hsplit, hsym, hn, hr,
        fun b hb => (boundaryMatch_eq_none_iff n s b).mp (hprev b hb)⟩
    · rintro ⟨l', hl', pre, e, post, hsplit, hsym, hn, hr, hprev⟩
      cases hl'
      exact ⟨pre, Bpmn.event e, post, hsplit,
        (boundaryMatch_eq_some_iff n s (Bpmn.event e) r).mpr ⟨e, rfl, hsym, hn, hr⟩,
        fun b hb => (boundaryMatch_eq_none_iff n s b).mpr (hprev b hb)⟩

end Snurr
